import Mathlib

/-!
Shallow embedding, in Lean 4, of the point-in-time sentiment pipeline of the
sentiment-reddit repository, together with proofs checking the repository's
natural-language specification against the code.

The embedding covers:
* `src/src/utils/calculate_signals.py` — the sentiment scorer
  (`analyze_sentiment`, `_clean_text`, `_calculate_gaming_keyword_sentiment`),
  the aggregator (`aggregate_sentiment_scores`) and the signal-series builder
  (`calculate_signals`), plus the keyword fallback of `_fetch_real_reddit_posts`;
* `src/Reddit/src/database/fetch_company_posts.py` — the per-day selector
  (`detect_keyword_match`, `filter_and_rank_submissions`), the processing
  ledger (`is_date_ticker_processed`, `start_processing_log`,
  `complete_processing_log`), the post store (`filter_existing_posts`,
  `insert_posts`) and the per-company driver (`process_company`).

Python floats are modelled as `ℚ`, Python ints as `ℤ`/`ℕ`, UTC timestamps as
integer epoch seconds, calendar dates as integer day ordinals, the external
TextBlob polarity call as an oracle returning `Except String ℚ` (an `error`
models a raised exception), and the Reddit search call of the fetch pipeline as
an oracle returning `Except Unit (List Submission)` (an `error` models a
`KeyboardInterrupt` escaping the fetch).
-/

namespace SentimentReddit

/-! ## Sentiment scoring: `src/src/utils/calculate_signals.py` -/

/-- Model of `GAMING_POSITIVE_KEYWORDS` from `calculate_signals.py`. -/
def gamingPositiveKeywords : List String :=
  ["amazing", "epic", "awesome", "fun", "addictive", "polished", "smooth",
   "beautiful", "stunning", "incredible", "fantastic", "brilliant", "perfect",
   "love", "best", "great", "excellent", "outstanding", "masterpiece",
   "engaging", "immersive", "compelling", "satisfying", "rewarding"]

/-- Model of `GAMING_NEGATIVE_KEYWORDS` from `calculate_signals.py`. -/
def gamingNegativeKeywords : List String :=
  ["buggy", "glitchy", "broken", "unplayable", "laggy", "pay-to-win",
   "terrible", "awful", "horrible", "disappointing", "frustrating", "annoying",
   "boring", "repetitive", "generic", "overpriced", "scam", "waste",
   "hate", "worst", "trash", "garbage", "uninstall", "refund"]

/-- Model of `TICKER_GAME_MAPPING` from `calculate_signals.py`. -/
def tickerGameMapping : List (String × List String) :=
  [("EA", ["Electronic Arts", "EA Games"]),
   ("TTWO", ["Take-Two Interactive", "TTWO"]),
   ("NTES", ["NetEase"]),
   ("RBLX", ["Roblox"]),
   ("MSFT", ["Microsoft"]),
   ("SONY", ["Sony"]),
   ("WBD", ["Warner Bros"]),
   ("NCBDY", ["CD Projekt"]),
   ("GDEV", ["Gaijin"]),
   ("OTGLF", ["Outlook Games"]),
   ("SNAL", ["Snail Games"]),
   ("GRVY", ["Gravity Games"])]

/-- The keyword choice made by `_fetch_real_reddit_posts`:
`TICKER_GAME_MAPPING.get(ticker, [ticker.lower()])`. -/
def fetchRealKeywords (ticker : String) : List String :=
  match tickerGameMapping.find? (fun p => p.1 = ticker) with
  | some p => p.2
  | none => [ticker.toLower]

/-- Python `\s` (ASCII): the whitespace class used by `re.sub(r'\s+', ...)`,
`str.split()` and `str.strip()`. -/
def isPySpace (c : Char) : Bool :=
  c = ' ' || c = '\t' || c = '\n' || c = '\r' || c = Char.ofNat 11 || c = Char.ofNat 12

/-- Python `\w` (modelled for ASCII text): alphanumeric or underscore. -/
def isWordChar (c : Char) : Bool :=
  c.isAlphanum || c = '_'

/-- Does the regex `http\S+|www\S+|https\S+` of `_clean_text` match at the head
of the character list?  (`https\S+` is subsumed by `http\S+`.) -/
def urlStart (l : List Char) : Bool :=
  (match l with
   | 'h' :: 't' :: 't' :: 'p' :: c :: _ => !isPySpace c
   | _ => false) ||
  (match l with
   | 'w' :: 'w' :: 'w' :: c :: _ => !isPySpace c
   | _ => false)

/-- Model of `re.sub(r'http\S+|www\S+|https\S+', '', text)` of `_clean_text`: scan left
to right; where an alternative matches, the greedy `\S+` consumes the whole
run of non-space characters. -/
def stripUrls : List Char → List Char
  | [] => []
  | c :: cs =>
    if urlStart (c :: cs) then
      -- the match consumes `c` and every following non-space character
      stripUrls (cs.dropWhile (fun d => !isPySpace d))
    else
      c :: stripUrls cs
termination_by l => l.length
decreasing_by
  · simp only [List.length_cons]
    exact Nat.lt_succ_of_le (List.dropWhile_sublist _).length_le
  · simp

/-- Model of `re.sub(r'[^\w\s]', ' ', text)` of `_clean_text`. -/
def replaceNonWord (l : List Char) : List Char :=
  l.map (fun c => if isWordChar c || isPySpace c then c else ' ')

/-- Maximal non-whitespace tokens, as produced by Python `str.split()`; also
used to model `re.sub(r'\s+', ' ', text).strip()` (which equals the tokens
re-joined by single spaces). -/
def splitTokens : List Char → List String
  | [] => []
  | c :: cs =>
    if isPySpace c then splitTokens cs
    else
      String.mk (c :: cs.takeWhile (fun d => !isPySpace d)) ::
        splitTokens (cs.dropWhile (fun d => !isPySpace d))
termination_by l => l.length
decreasing_by
  · simp
  · simp only [List.length_cons]
    exact Nat.lt_succ_of_le (List.dropWhile_sublist _).length_le

/-- Model of `_clean_text` from `calculate_signals.py`: lowercase, drop URLs, replace
non-word characters by spaces, collapse whitespace and strip. -/
def cleanText (s : String) : String :=
  String.intercalate " " (splitTokens (replaceNonWord (stripUrls (s.data.map Char.toLower))))

/-- Model of `_calculate_gaming_keyword_sentiment` from `calculate_signals.py`. -/
def gamingKeywordSentiment (text : String) : ℚ :=
  let words := splitTokens text.data
  let positiveCount := words.countP (fun w => decide (w ∈ gamingPositiveKeywords))
  let negativeCount := words.countP (fun w => decide (w ∈ gamingNegativeKeywords))
  if positiveCount + negativeCount = 0 then 0
  else
    let sentimentRatio : ℚ :=
      ((positiveCount : ℚ) - (negativeCount : ℚ)) / ((positiveCount : ℚ) + (negativeCount : ℚ))
    max (-1) (min 1 sentimentRatio)

/-- Model of `analyze_sentiment` from `calculate_signals.py`.  The input is `none` when
the Python value is not a string (`not isinstance(text, str)`); `polarity`
models the external `TextBlob(...).sentiment.polarity` call, with
`Except.error` modelling a raised exception (caught by the function's
`try/except`, which returns `0.0`). -/
def analyzeSentiment (text : Option String) (polarity : String → Except String ℚ) : ℚ :=
  match text with
  | none => 0
  | some t =>
    if t = "" then 0
    else
      let cleaned := cleanText t
      match polarity cleaned with
      | Except.error _ => 0
      | Except.ok textblobScore =>
        let keywordScore := gamingKeywordSentiment cleaned
        let combinedScore := (7 / 10 : ℚ) * textblobScore + (3 / 10 : ℚ) * keywordScore
        max (-1) (min 1 combinedScore)

/-! ## Aggregation and the series builder: `src/src/utils/calculate_signals.py` -/

/-- A row of the `posts_df` dataframe consumed by `aggregate_sentiment_scores`:
ticker, `score` (upvotes), `num_comments`, `created_utc` (epoch seconds, a
float in Python) and the per-post `sentiment_score`. -/
structure RPost where
  ticker : String
  score : ℤ
  numComments : ℤ
  createdUtc : ℚ
  sentimentScore : ℚ
deriving Repr, DecidableEq

/-- Model of `engagement_weight = score + num_comments * 2`. -/
def engagementWeight (p : RPost) : ℚ :=
  (p.score : ℚ) + (p.numComments : ℚ) * 2

/-- Model of `time_weight = 1.0 / (1.0 + (current_time - created_utc) / 86400)` where
`current_time = datetime.now().timestamp()` — the wall clock at run time,
passed here explicitly as `now`. -/
def timeWeight (now : ℚ) (p : RPost) : ℚ :=
  1 / (1 + (now - p.createdUtc) / 86400)

/-- Model of `final_weight = engagement_weight * time_weight`. -/
def finalWeight (now : ℚ) (p : RPost) : ℚ :=
  engagementWeight p * timeWeight now p

/-- Model of `aggregate_sentiment_scores(sentiment_data, ticker, target_date)` from
`calculate_signals.py`.  The Python function filters the dataframe by ticker
only; `target_date` is received but used only in a debug log line.  `now` is
the wall-clock `datetime.now().timestamp()` read inside the function. -/
def aggregateSentimentScores (sentimentData : List RPost) (ticker : String)
    (targetDate : ℤ) (now : ℚ) : ℚ :=
  let tickerData := sentimentData.filter (fun p => decide (p.ticker = ticker))
  if tickerData.isEmpty then
    -- fallback: neutral score 0.00 when no data found for the ticker
    0
  else
    let weightSum := (tickerData.map (fun p => finalWeight now p)).sum
    if weightSum = 0 then
      (tickerData.map (fun p => p.sentimentScore)).sum / (tickerData.length : ℚ)
    else
      (tickerData.map (fun p => p.sentimentScore * finalWeight now p)).sum / weightSum

/-- One emitted signal row (the `asof_date`, `ticker` and `value` columns; the
remaining columns — `signal_name`, `confidence`, `posts_analyzed`, metadata —
are not involved in any claim and are omitted). -/
structure Signal where
  asofDate : ℤ
  ticker : String
  value : ℚ
deriving Repr, DecidableEq

/-- The dates visited by `while current_date <= end_date`. -/
def dateRange (startDate endDate : ℤ) : List ℤ :=
  (List.range (endDate + 1 - startDate).toNat).map (fun i : ℕ => startDate + (i : ℤ))

/-- Model of `calculate_signals(tickers, start_date, end_date)` from
`calculate_signals.py`: the date × ticker double loop, followed by the
hard coverage check that raises `ValueError` on a count mismatch
(`Except.error` models the raise). -/
def calculateSignals (tickers : List String) (startDate endDate : ℤ)
    (posts : List RPost) (now : ℚ) : Except String (List Signal) :=
  let expectedSignals : ℤ := (tickers.length : ℤ) * (endDate - startDate + 1)
  let signalsData : List Signal :=
    (dateRange startDate endDate).flatMap (fun d =>
      tickers.map (fun t =>
        { asofDate := d, ticker := t,
          value := aggregateSentimentScores posts t d now }))
  if (signalsData.length : ℤ) ≠ expectedSignals then
    Except.error "Signal count mismatch!"
  else
    Except.ok signalsData

/-- The UTC calendar date (as a day ordinal) of an epoch-second timestamp,
as computed by `datetime.fromtimestamp(ts, tz=timezone.utc).date()`. -/
def tsDate (ts : ℤ) : ℤ := ts / 86400

/-! ## The fetch pipeline: `src/Reddit/src/database/fetch_company_posts.py` -/

/-- A keyword row of `varrock.company_keywords` (the `company_uid` field plays
no role in processing and is omitted). -/
structure KeywordInfo where
  keyword : String
  priority : ℤ
deriving Repr, DecidableEq

/-- A company with its keywords, as assembled by `fetch_keywords_from_database`. -/
structure CompanyKeywords where
  ticker : String
  companyName : String
  keywords : List KeywordInfo
deriving Repr, DecidableEq

/-- A PRAW submission, restricted to the fields the pipeline reads.
`selftext` holds `submission.selftext or ''` (so a Python `None` body is the
empty string). -/
structure Submission where
  id : String
  title : String
  selftext : String
  createdUtc : ℤ
  score : ℤ
  numComments : ℤ
deriving Repr, DecidableEq

/-- Model of `detect_keyword_match(text, keyword)`: case-insensitive substring test
(`keyword.lower() in text.lower()`).  `containsSub needle hay` decides whether
`needle` occurs as a contiguous substring of `hay`. -/
def containsSub (needle : List Char) : List Char → Bool
  | [] => needle.isEmpty
  | c :: t => needle.isPrefixOf (c :: t) || containsSub needle t

/-- Model of `detect_keyword_match` from `fetch_company_posts.py`. -/
def detectKeywordMatch (text keyword : String) : Bool :=
  containsSub (keyword.data.map Char.toLower) (text.data.map Char.toLower)

/-- The descending-upvotes comparison used by
`matched.sort(key=lambda s: getattr(s, "score", 0), reverse=True)`; Python's
sort is stable, as is `List.mergeSort`. -/
def byScoreDesc (a b : Submission) : Bool :=
  decide (b.score ≤ a.score)

/-- Model of `filter_and_rank_submissions(submissions, keyword, target_date,
per_day_cap)` from `fetch_company_posts.py`: keep submissions created on the
target date whose `title + "\n" + selftext` matches the keyword, sort by
upvotes descending (stable) and truncate to the cap. -/
def filterAndRankSubmissions (submissions : List Submission) (keyword : String)
    (targetDate : ℤ) (perDayCap : ℕ) : List Submission :=
  let matched := submissions.filter (fun s =>
    decide (tsDate s.createdUtc = targetDate) &&
      detectKeywordMatch (s.title ++ "\n" ++ s.selftext) keyword)
  (matched.mergeSort byScoreDesc).take perDayCap

/-- A row of `tin.reddit_posts`, restricted to the fields the claims involve
(author, subreddit, url and `collected_at` are carried along in the source but
never read by the pipeline logic). -/
structure RedditPost where
  redditId : String
  title : String
  content : String
  createdUtc : ℤ
  upvotes : ℤ
  numComments : ℤ
  ticker : String
  keywordMatched : String
deriving Repr, DecidableEq

/-- Model of `submission_to_reddit_post` from `fetch_company_posts.py`. -/
def submissionToRedditPost (s : Submission) (keywordMatched ticker : String) : RedditPost :=
  { redditId := s.id
    title := s.title
    content := s.selftext
    createdUtc := s.createdUtc
    upvotes := s.score
    numComments := s.numComments
    ticker := ticker
    keywordMatched := keywordMatched }

/-- A row of `tin.reddit_processing_log` (timestamps omitted; the table has a
uniqueness constraint on `(ticker, processed_date)`). -/
structure LogEntry where
  ticker : String
  date : ℤ
  status : String
  errorMessage : Option String
  postsFound : ℕ
  postsInserted : ℕ
deriving Repr, DecidableEq

/-- The mutable database state seen by the fetch pipeline: the processing-log
table and the `tin.reddit_posts` store. -/
structure PState where
  ledger : List LogEntry
  store : List RedditPost
deriving Repr, DecidableEq

/-- Model of `is_date_ticker_processed(ore_conn, target_date, ticker)`: `SELECT
COUNT(*) ... WHERE processed_date = %s AND ticker = %s AND status =
'completed'`, returning `count > 0`. -/
def isDateTickerProcessed (ledger : List LogEntry) (targetDate : ℤ) (ticker : String) : Bool :=
  ledger.any (fun e => decide (e.ticker = ticker ∧ e.date = targetDate ∧ e.status = "completed"))

/-- Model of `start_processing_log`: `INSERT ... VALUES (..., 'in_progress') ON
CONFLICT (ticker, processed_date) DO UPDATE SET status = 'in_progress',
error_message = NULL`. -/
def startProcessingLog (st : PState) (ticker : String) (targetDate : ℤ) : PState :=
  if st.ledger.any (fun e => decide (e.ticker = ticker ∧ e.date = targetDate)) then
    { st with ledger := st.ledger.map (fun e =>
        if e.ticker = ticker ∧ e.date = targetDate then
          { e with status := "in_progress", errorMessage := none }
        else e) }
  else
    { st with ledger := st.ledger ++
        [{ ticker := ticker, date := targetDate, status := "in_progress",
           errorMessage := none, postsFound := 0, postsInserted := 0 }] }

/-- The row update performed by `complete_processing_log`'s SQL `UPDATE`:
every ledger row matching `(ticker, processed_date)` gets its counts, status
and error message replaced. -/
def completeLedgerUpdate (ledger : List LogEntry) (ticker : String) (targetDate : ℤ)
    (postsFound postsInserted : ℕ) (status : String) (errorMessage : Option String) :
    List LogEntry :=
  ledger.map (fun e =>
    if e.ticker = ticker ∧ e.date = targetDate then
      { e with postsFound := postsFound, postsInserted := postsInserted,
               status := status, errorMessage := errorMessage }
    else e)

/-- Model of `complete_processing_log`: `UPDATE ... SET posts_found, posts_inserted,
status, error_message WHERE ticker = %s AND processed_date = %s`. -/
def completeProcessingLog (st : PState) (ticker : String) (targetDate : ℤ)
    (postsFound postsInserted : ℕ) (status : String) (errorMessage : Option String) : PState :=
  { st with ledger := (completeLedgerUpdate st.ledger ticker targetDate
      postsFound postsInserted status errorMessage) }

/-- Model of `filter_existing_posts(ore_conn, posts)`: look up which of the batch's
`reddit_id`s already exist in the store (`WHERE reddit_id = ANY(%s)`) and drop
those posts. -/
def filterExistingPosts (store : List RedditPost) (posts : List RedditPost) : List RedditPost :=
  if posts.isEmpty then posts
  else
    let redditIds := posts.map (fun p => p.redditId)
    let existing := (store.map (fun p => p.redditId)).filter (fun i => decide (i ∈ redditIds))
    if existing.isEmpty then posts
    else posts.filter (fun p => decide (p.redditId ∉ existing))

/-- Model of `insert_posts(ore_conn, posts)`: one `INSERT` per post, returning the
number inserted; the new store contents are returned alongside. -/
def insertPosts (store : List RedditPost) (posts : List RedditPost) : ℕ × List RedditPost :=
  (posts.length, store ++ posts)

/-- The Reddit search oracle used by the fetch pipeline:
`fetch_submissions_for_keyword(reddit, keyword, target_date)`.  An
`Except.error ()` result models a `KeyboardInterrupt` raised while fetching
(which that function re-raises immediately). -/
def Fetcher : Type := String → ℤ → Except Unit (List Submission)

/-- The keyword loop of `process_company`: process keywords in priority order,
breaking once the daily cap is reached; fetch, filter-and-rank, drop ids
already collected, and keep at most the remaining slots.  An interrupt during
a fetch aborts the loop (`Except.error ()`). -/
def collectKeywordPosts (fetch : Fetcher) (ticker : String) (targetDate : ℤ)
    (perDayCap : ℕ) : List KeywordInfo → List RedditPost → Except Unit (List RedditPost)
  | [], allPosts => Except.ok allPosts
  | keywordInfo :: rest, allPosts =>
    if perDayCap ≤ allPosts.length then Except.ok allPosts
    else
      match fetch keywordInfo.keyword targetDate with
      | Except.error () => Except.error ()
      | Except.ok submissions =>
        let filtered := filterAndRankSubmissions submissions keywordInfo.keyword targetDate perDayCap
        let keywordPosts := filtered.map (fun s =>
          submissionToRedditPost s keywordInfo.keyword ticker)
        let existingIds := allPosts.map (fun p => p.redditId)
        let keywordPosts := keywordPosts.filter (fun p => decide (p.redditId ∉ existingIds))
        let keywordPosts := keywordPosts.take (perDayCap - allPosts.length)
        collectKeywordPosts fetch ticker targetDate perDayCap rest (allPosts ++ keywordPosts)

/-- The outcome of `process_company`: a normal return `(posts_found,
posts_inserted)` with the resulting database state, or a propagating
`KeyboardInterrupt` with the state as left behind by the `finally` block. -/
inductive ProcOutcome where
  | ok (found inserted : ℕ) (st : PState)
  | interrupted (st : PState)
deriving Repr, DecidableEq

/-- Model of `process_company` from `fetch_company_posts.py`.  Branch structure of the
source: companies without keywords are logged as `skipped` (when not a dry
run) and returned; already-processed (ticker, date) pairs return immediately;
otherwise the ledger entry is started, the keyword loop runs, and the
`finally` block completes the ledger entry — with status `completed` on
success and status `failed` (message "Processing interrupted by user") when a
`KeyboardInterrupt` escapes the loop, in which case the interrupt is
re-raised. -/
def processCompany (fetch : Fetcher) (company : CompanyKeywords) (targetDate : ℤ)
    (perDayCap : ℕ) (dryRun : Bool) (st : PState) : ProcOutcome :=
  if company.keywords.isEmpty then
    if dryRun then ProcOutcome.ok 0 0 st
    else
      let st1 := startProcessingLog st company.ticker targetDate
      let st2 := completeProcessingLog st1 company.ticker targetDate 0 0
        "skipped" (some "No keywords found for company")
      ProcOutcome.ok 0 0 st2
  else if isDateTickerProcessed st.ledger targetDate company.ticker then
    ProcOutcome.ok 0 0 st
  else
    let st1 := if dryRun then st else startProcessingLog st company.ticker targetDate
    match collectKeywordPosts fetch company.ticker targetDate perDayCap company.keywords [] with
    | Except.error () =>
      if dryRun then ProcOutcome.interrupted st1
      else
        ProcOutcome.interrupted (completeProcessingLog st1 company.ticker targetDate 0 0
          "failed" (some "Processing interrupted by user"))
    | Except.ok allPosts =>
      let postsFound := allPosts.length
      let newPosts := filterExistingPosts st1.store allPosts
      if dryRun then ProcOutcome.ok newPosts.length 0 st1
      else
        let inserted := (insertPosts st1.store newPosts).1
        let st2 : PState := { ledger := st1.ledger, store := (insertPosts st1.store newPosts).2 }
        ProcOutcome.ok postsFound inserted
          (completeProcessingLog st2 company.ticker targetDate postsFound inserted
            "completed" none)

/-! ## Helper lemmas -/

theorem filterExistingPosts_eq_filter (store posts : List RedditPost) :
    filterExistingPosts store posts =
      posts.filter (fun p => decide (p.redditId ∉ store.map (fun q => q.redditId))) := by
  unfold filterExistingPosts
  by_cases hp : posts.isEmpty
  · rw [List.isEmpty_iff] at hp
    subst hp
    simp
  · rw [if_neg hp]
    by_cases he : ((store.map (fun p => p.redditId)).filter
        (fun i => decide (i ∈ posts.map (fun p => p.redditId)))).isEmpty
    · rw [if_pos he]
      rw [List.isEmpty_iff, List.filter_eq_nil_iff] at he
      rw [eq_comm, List.filter_eq_self]
      intro p hpmem
      simp only [decide_eq_true_eq]
      intro hmem
      have hbatch : p.redditId ∈ posts.map (fun q => q.redditId) :=
        List.mem_map_of_mem _ hpmem
      exact he p.redditId hmem (by simpa using hbatch)
    · rw [if_neg he]
      apply List.filter_congr
      intro p hpmem
      simp only [decide_eq_decide, List.mem_filter, decide_eq_true_eq]
      constructor
      · intro h hmem
        exact h ⟨hmem, List.mem_map_of_mem _ hpmem⟩
      · intro h hmem
        exact h hmem.1

theorem length_filter_add_length_filter_not {α : Type _} (l : List α) (p : α → Prop)
    [DecidablePred p] :
    (l.filter (fun a => decide (p a))).length + (l.filter (fun a => decide (¬p a))).length =
      l.length := by
  induction l with
  | nil => rfl
  | cons x xs ih =>
    by_cases hx : p x
    · rw [List.filter_cons_of_pos (by simpa using hx),
        List.filter_cons_of_neg (by simpa using hx)]
      simp only [List.length_cons]
      omega
    · rw [List.filter_cons_of_neg (by simpa using hx),
        List.filter_cons_of_pos (by simpa using hx)]
      simp only [List.length_cons]
      omega

theorem aggregate_pair (a b : RPost) (tick : String) (d : ℤ) (now : ℚ)
    (ha : a.ticker = tick) (hb : b.ticker = tick)
    (hne : finalWeight now a + finalWeight now b ≠ 0) :
    aggregateSentimentScores [a, b] tick d now =
      (a.sentimentScore * finalWeight now a + b.sentimentScore * finalWeight now b) /
        (finalWeight now a + finalWeight now b) := by
  unfold aggregateSentimentScores
  have hfilter : ([a, b] : List RPost).filter (fun p => decide (p.ticker = tick)) = [a, b] := by
    simp [ha, hb]
  rw [hfilter]
  rw [if_neg (by simp)]
  simp only [List.map_cons, List.map_nil, List.sum_cons, List.sum_nil, add_zero]
  rw [if_neg hne]

theorem completeLedgerUpdate_key_status (L : List LogEntry) (t : String) (d : ℤ)
    (f i : ℕ) (s : String) (err : Option String) :
    ∀ e ∈ completeLedgerUpdate L t d f i s err,
      e.ticker = t → e.date = d → e.status = s ∧ e.errorMessage = err := by
  intro e he ht hd
  simp only [completeLedgerUpdate, List.mem_map] at he
  obtain ⟨x, hx, rfl⟩ := he
  by_cases hk : x.ticker = t ∧ x.date = d
  · simp [hk]
  · simp only [if_neg hk] at ht hd
    exact absurd ⟨ht, hd⟩ hk

theorem startProcessingLog_exists_key (st : PState) (t : String) (d : ℤ) :
    ∃ e ∈ (startProcessingLog st t d).ledger, e.ticker = t ∧ e.date = d := by
  unfold startProcessingLog
  by_cases h : st.ledger.any (fun e => decide (e.ticker = t ∧ e.date = d))
  · rw [if_pos h]
    rw [List.any_eq_true] at h
    obtain ⟨x, hx, hpx⟩ := h
    simp only [decide_eq_true_eq] at hpx
    refine ⟨_, List.mem_map_of_mem _ hx, ?_⟩
    simp only [if_pos hpx]
    exact ⟨hpx.1, hpx.2⟩
  · rw [if_neg h]
    exact ⟨_, List.mem_append_right _ (List.mem_singleton_self _), rfl, rfl⟩

theorem completeLedgerUpdate_exists_key (L : List LogEntry) (t : String) (d : ℤ)
    (f i : ℕ) (s : String) (err : Option String)
    (h : ∃ e ∈ L, e.ticker = t ∧ e.date = d) :
    ∃ e ∈ completeLedgerUpdate L t d f i s err,
      e.ticker = t ∧ e.date = d ∧ e.status = s ∧ e.errorMessage = err := by
  obtain ⟨x, hx, hk⟩ := h
  refine ⟨_, List.mem_map_of_mem _ hx, ?_⟩
  simp [hk, hk.1, hk.2]

theorem isProcessed_completeLedgerUpdate_ne (L : List LogEntry) (t : String) (d : ℤ)
    (f i : ℕ) (s : String) (err : Option String) (hs : s ≠ "completed") :
    isDateTickerProcessed (completeLedgerUpdate L t d f i s err) d t = false := by
  unfold isDateTickerProcessed
  rw [List.any_eq_false]
  intro x hx
  simp only [decide_eq_true_eq]
  rintro ⟨h1, h2, h3⟩
  have := completeLedgerUpdate_key_status L t d f i s err x hx h1 h2
  exact hs (this.1 ▸ h3)

theorem collectKeywordPosts_fetch_nil (t : String) (d : ℤ) (cap : ℕ) :
    ∀ (kws : List KeywordInfo) (acc : List RedditPost),
      collectKeywordPosts (fun _ _ => Except.ok []) t d cap kws acc = Except.ok acc := by
  intro kws
  induction kws with
  | nil => intro _; rfl
  | cons kw rest ih =>
    intro acc
    rw [collectKeywordPosts]
    by_cases hcap : cap ≤ acc.length
    · rw [if_pos hcap]
    · rw [if_neg hcap]
      have hfr : filterAndRankSubmissions [] kw.keyword d cap = [] := by
        simp [filterAndRankSubmissions]
      simp only [hfr, List.map_nil, List.filter_nil, List.take_nil, List.append_nil]
      exact ih acc

theorem byScoreDesc_trans : ∀ a b c : Submission,
    byScoreDesc a b → byScoreDesc b c → byScoreDesc a c := by
  intro a b c hab hbc
  simp only [byScoreDesc, decide_eq_true_eq] at *
  omega

theorem byScoreDesc_total : ∀ a b : Submission, byScoreDesc a b || byScoreDesc b a := by
  intro a b
  simp only [byScoreDesc, Bool.or_eq_true, decide_eq_true_eq]
  exact le_total b.score a.score

theorem mergeSort_filter_score (k : ℤ) : ∀ l : List Submission,
    (l.mergeSort byScoreDesc).filter (fun s => decide (s.score = k)) =
      l.filter (fun s => decide (s.score = k)) := by
  intro l
  induction l with
  | nil => simp
  | cons a l ih =>
    obtain ⟨l₁, l₂, h1, h2, h3⟩ := List.mergeSort_cons byScoreDesc_trans byScoreDesc_total a l
    rw [h1, List.filter_append]
    by_cases hk : a.score = k
    · have hl₁ : l₁.filter (fun s => decide (s.score = k)) = [] := by
        rw [List.filter_eq_nil_iff]
        intro b hb
        simp only [decide_eq_true_eq]
        intro hbk
        have hab := h3 b hb
        simp only [byScoreDesc, Bool.not_eq_eq_eq_not, Bool.not_true, decide_eq_false_iff_not] at hab
        omega
      have hl₂ : l₂.filter (fun s => decide (s.score = k)) =
          l.filter (fun s => decide (s.score = k)) := by
        have := ih
        rw [h2, List.filter_append, hl₁, List.nil_append] at this
        exact this
      rw [hl₁, List.filter_cons_of_pos (by simpa using hk),
        List.filter_cons_of_pos (by simpa using hk), List.nil_append, hl₂]
    · have hl₂ : l₁.filter (fun s => decide (s.score = k)) ++
          l₂.filter (fun s => decide (s.score = k)) =
          l.filter (fun s => decide (s.score = k)) := by
        have := ih
        rw [h2, List.filter_append] at this
        exact this
      rw [List.filter_cons_of_neg (by simpa using hk),
        List.filter_cons_of_neg (by simpa using hk), hl₂]

/-! ## Claim theorems -/

/-- Claim C1: (code bug).  The claim states that the aggregated signal for an
as-of date is computed only from posts created at or before that date, inside
the inclusive window `[as_of_date - lookback_days, as_of_date]`.  In the
`calculate_signals` pipeline this fails: `aggregate_sentiment_scores` filters
its input by ticker only (its `target_date` argument is unused), so a post
created on day 1 (timestamp 86400, i.e. `tsDate 86400 = 1`) drives the signal
for as-of day 0 from the no-data fallback 0 to the value 1. -/
theorem aggregate_includes_future_posts :
    (∀ (sentimentData : List RPost) (ticker : String) (d d' : ℤ) (now : ℚ),
      aggregateSentimentScores sentimentData ticker d now =
        aggregateSentimentScores sentimentData ticker d' now) ∧
    calculateSignals ["EA"] 0 1 [⟨"EA", 1, 0, 86400, 1⟩] 86400 =
      Except.ok [⟨0, "EA", 1⟩, ⟨1, "EA", 1⟩] ∧
    tsDate 86400 = 1 ∧
    aggregateSentimentScores [⟨"EA", 1, 0, 86400, 1⟩] "EA" 0 86400 ≠
      aggregateSentimentScores [] "EA" 0 86400 := by
  have ha : ∀ d : ℤ, aggregateSentimentScores [⟨"EA", 1, 0, 86400, 1⟩] "EA" d 86400 = 1 := by
    intro d
    show aggregateSentimentScores [⟨"EA", 1, 0, 86400, 1⟩] "EA" 0 86400 = 1
    simp only [aggregateSentimentScores, finalWeight, engagementWeight, timeWeight]
    norm_num
  refine ⟨fun _ _ _ _ _ => rfl, ?_, by decide, ?_⟩
  · have hd : dateRange 0 1 = [0, 1] := by decide
    simp only [calculateSignals, hd, List.flatMap_cons, List.flatMap_nil, List.map_cons,
      List.map_nil, List.append_nil, List.length_cons, List.length_nil, ha]
    norm_num
  · rw [ha 0, show aggregateSentimentScores [] "EA" 0 86400 = 0 from by
      simp [aggregateSentimentScores]]
    norm_num

/-- Claim C2: (code bug).  The claim states that the recency weight of a post is
`1 / (1 + age_in_days)` with the age measured from the as-of date, not from
the wall clock at run time.  In `aggregate_sentiment_scores` the time weight
is computed from `datetime.now().timestamp()`: with the ticker, posts and
target date all fixed, the aggregated value changes from 1/3 to 2/5 when the
program merely runs a day later. -/
theorem aggregate_time_weight_uses_wall_clock :
    aggregateSentimentScores [⟨"EA", 1, 0, 0, 1⟩, ⟨"EA", 1, 0, 86400, 0⟩] "EA" 0 86400 =
      1 / 3 ∧
    aggregateSentimentScores [⟨"EA", 1, 0, 0, 1⟩, ⟨"EA", 1, 0, 86400, 0⟩] "EA" 0 172800 =
      2 / 5 ∧
    (1 / 3 : ℚ) ≠ 2 / 5 := by
  refine ⟨?_, ?_, by norm_num⟩ <;>
    · simp only [aggregateSentimentScores, finalWeight, engagementWeight, timeWeight]
      norm_num

/-- Claim C10: (confirmed).  `analyze_sentiment` is total and range-bounded: for
every input and every behaviour of the TextBlob polarity oracle the result
lies in `[-1, 1]`; a non-string input (modelled as `none`) and the empty
string yield exactly 0; and an exception raised by the scoring step (modelled
as `Except.error`) also yields exactly 0. -/
theorem analyze_sentiment_total_bounded :
    ∀ (text : Option String) (polarity : String → Except String ℚ),
      (-1 ≤ analyzeSentiment text polarity ∧ analyzeSentiment text polarity ≤ 1) ∧
      analyzeSentiment none polarity = 0 ∧
      analyzeSentiment (some "") polarity = 0 ∧
      (∀ t msg, polarity (cleanText t) = Except.error msg →
        analyzeSentiment (some t) polarity = 0) := by
  intro text polarity
  refine ⟨?_, rfl, by simp [analyzeSentiment], ?_⟩
  · unfold analyzeSentiment
    match text with
    | none => norm_num
    | some t =>
      by_cases h : t = ""
      · simp [h]
      · simp only [if_neg h]
        match polarity (cleanText t) with
        | Except.error _ => norm_num
        | Except.ok textblobScore =>
          exact ⟨le_max_left _ _, max_le (by norm_num) (min_le_left _ _)⟩
  · intro t msg hp
    unfold analyzeSentiment
    by_cases h : t = ""
    · simp [h]
    · simp [if_neg h, hp]

/-- Witness for C10: a raising oracle yields 0, and an ordinary input with an
ordinary oracle stays within the bounds. -/
theorem analyze_sentiment_total_bounded_witness :
    analyzeSentiment (some "oops") (fun _ => Except.error "boom") = 0 ∧
    -1 ≤ analyzeSentiment (some "great game") (fun _ => Except.ok (3 / 4)) :=
  ⟨(analyze_sentiment_total_bounded (some "oops") (fun _ => Except.error "boom")).2.2.2
      "oops" "boom" rfl,
   (analyze_sentiment_total_bounded (some "great game") (fun _ => Except.ok (3 / 4))).1.1⟩

/-- Claim C7: (confirmed).  For a batch of `N` posts of which `M` already exist
in the store by `reddit_id`: the insert path inserts exactly `N - M` rows, the
skip count `N - |filtered|` equals `M`, and no row is added for an
already-present `reddit_id` (its multiplicity in the store is unchanged). -/
theorem insert_posts_skip_counts :
    ∀ (store posts : List RedditPost),
      (insertPosts store (filterExistingPosts store posts)).1 =
        posts.length -
          (posts.filter (fun p => decide (p.redditId ∈ store.map (fun q => q.redditId)))).length ∧
      posts.length - (filterExistingPosts store posts).length =
        (posts.filter (fun p => decide (p.redditId ∈ store.map (fun q => q.redditId)))).length ∧
      (∀ p ∈ posts, p.redditId ∈ store.map (fun q => q.redditId) →
        ((insertPosts store (filterExistingPosts store posts)).2.map
            (fun q => q.redditId)).count p.redditId =
          (store.map (fun q => q.redditId)).count p.redditId) := by
  intro store posts
  rw [filterExistingPosts_eq_filter]
  have hsplit :=
    length_filter_add_length_filter_not posts
      (fun p => p.redditId ∈ store.map (fun q => q.redditId))
  refine ⟨by simp only [insertPosts]; omega, by omega, ?_⟩
  intro p hp hmem
  simp only [insertPosts, List.map_append, List.count_append]
  have hzero :
      ((posts.filter (fun r => decide (r.redditId ∉ store.map (fun q => q.redditId)))).map
          (fun q => q.redditId)).count p.redditId = 0 := by
    rw [List.count_eq_zero]
    intro hin
    obtain ⟨q, hq, hqid⟩ := List.mem_map.mp hin
    have := (List.mem_filter.mp hq).2
    simp only [decide_eq_true_eq] at this
    exact this (hqid ▸ hmem)
  omega

/-! ### C3: coverage of the signal-series builder -/

theorem length_dateRange (s e : ℤ) (h : s ≤ e) :
    ((dateRange s e).length : ℤ) = e - s + 1 := by
  unfold dateRange
  rw [List.length_map, List.length_range]
  omega

theorem nodup_dateRange (s e : ℤ) : (dateRange s e).Nodup := by
  unfold dateRange
  apply List.Nodup.map
  · intro a b hab
    simp only at hab
    omega
  · exact List.nodup_range _

theorem calculateSignals_pairs (tickers : List String) (s e : ℤ)
    (posts : List RPost) (now : ℚ) :
    (((dateRange s e).flatMap (fun d =>
        tickers.map (fun t =>
          ({ asofDate := d, ticker := t,
             value := aggregateSentimentScores posts t d now } : Signal)))).map
        (fun g => (g.asofDate, g.ticker))) =
      (dateRange s e) ×ˢ tickers := by
  induction dateRange s e with
  | nil => rfl
  | cons d rest ih =>
    simp only [List.flatMap_cons, List.map_append, List.map_map, ih,
      List.product_cons]
    rfl

/-- Claim C3: (confirmed).  First part: the builder can only return a signal list
whose size is exactly `|T| × (end - start + 1)` — any mismatch is a loud
`ValueError`, never a silent return.  Second part: for a non-empty
duplicate-free ticker list and `start ≤ end` the run succeeds, emitting
exactly that many rows with no duplicate `(as_of_date, ticker)` pair. -/
theorem calculate_signals_coverage :
    (∀ (tickers : List String) (s e : ℤ) (posts : List RPost) (now : ℚ) (l : List Signal),
        calculateSignals tickers s e posts now = Except.ok l →
        (l.length : ℤ) = tickers.length * (e - s + 1)) ∧
    (∀ (tickers : List String) (s e : ℤ) (posts : List RPost) (now : ℚ),
        tickers ≠ [] → tickers.Nodup → s ≤ e →
        ∃ l, calculateSignals tickers s e posts now = Except.ok l ∧
          (l.length : ℤ) = tickers.length * (e - s + 1) ∧
          (l.map (fun g => (g.asofDate, g.ticker))).Nodup) := by
  constructor
  · intro tickers s e posts now l h
    simp only [calculateSignals] at h
    split at h
    · exact absurd h (by simp)
    · next hcond =>
      rw [not_not] at hcond
      obtain rfl : _ = l := (Except.ok.injEq _ _).mp h
      exact hcond
  · intro tickers s e posts now _ hnd hse
    have hlen :
        ((((dateRange s e).flatMap (fun d =>
            tickers.map (fun t =>
              ({ asofDate := d, ticker := t,
                 value := aggregateSentimentScores posts t d now } : Signal)))).length : ℤ)) =
          (tickers.length : ℤ) * (e - s + 1) := by
      have h1 := congrArg List.length (calculateSignals_pairs tickers s e posts now)
      rw [List.length_map, List.length_product] at h1
      rw [h1]
      push_cast
      rw [length_dateRange s e hse]
      ring
    refine ⟨_, ?_, hlen, ?_⟩
    · unfold calculateSignals
      rw [if_neg (by rw [hlen]; exact not_not_intro rfl)]
    · rw [calculateSignals_pairs]
      exact (nodup_dateRange s e).product hnd

/-- Witness for C3: a concrete two-ticker, two-day run. -/
theorem calculate_signals_coverage_witness :
    ∃ l, calculateSignals ["EA", "MSFT"] 0 1 [] 0 = Except.ok l ∧
      (l.length : ℤ) = (["EA", "MSFT"] : List String).length * (1 - 0 + 1) ∧
      (l.map (fun g => (g.asofDate, g.ticker))).Nodup :=
  calculate_signals_coverage.2 ["EA", "MSFT"] 0 1 [] 0 (by decide) (by decide) (by norm_num)

/-- Witness for C7: a store holding id "a", a batch of ids "a" and "b" —
exactly one row inserted and the multiplicity of "a" unchanged. -/
theorem insert_posts_skip_counts_witness :
    (insertPosts [⟨"a", "t", "c", 0, 1, 1, "EA", "ea"⟩]
        (filterExistingPosts [⟨"a", "t", "c", 0, 1, 1, "EA", "ea"⟩]
          [⟨"a", "t2", "c2", 5, 2, 0, "EA", "ea"⟩, ⟨"b", "t3", "c3", 7, 3, 1, "EA", "ea"⟩])).1 =
      1 ∧
    ((insertPosts [⟨"a", "t", "c", 0, 1, 1, "EA", "ea"⟩]
        (filterExistingPosts [⟨"a", "t", "c", 0, 1, 1, "EA", "ea"⟩]
          [⟨"a", "t2", "c2", 5, 2, 0, "EA", "ea"⟩, ⟨"b", "t3", "c3", 7, 3, 1, "EA", "ea"⟩])).2.map
        (fun q => q.redditId)).count "a" = 1 := by
  have h := insert_posts_skip_counts [⟨"a", "t", "c", 0, 1, 1, "EA", "ea"⟩]
    [⟨"a", "t2", "c2", 5, 2, 0, "EA", "ea"⟩, ⟨"b", "t3", "c3", 7, 3, 1, "EA", "ea"⟩]
  constructor
  · rw [h.1]
    decide
  · rw [h.2.2 ⟨"a", "t2", "c2", 5, 2, 0, "EA", "ea"⟩ (by decide) (by decide)]
    decide

/-- Claim C8: (confirmed).  Two posts for the same ticker with the same age
(equal `created_utc`), the same comment count, opposite-sign sentiments of
equal magnitude, where A has 10× the (positive) upvotes of B: the weighted
mean produced by `aggregate_sentiment_scores` lies strictly between the
unweighted mean `(s + -s)/2` of the two sentiments and A's own sentiment `s`.
The hypotheses `0 < u` and `cr ≤ now` keep both final weights positive, which
is what makes the pull strict. -/
theorem aggregate_pulled_toward_engagement :
    ∀ (tick : String) (targetDate : ℤ) (cr now : ℚ) (u c : ℤ) (s : ℚ),
      0 < u → 0 ≤ c → cr ≤ now →
      ((0 < s →
        (s + -s) / 2 < aggregateSentimentScores
            [⟨tick, 10 * u, c, cr, s⟩, ⟨tick, u, c, cr, -s⟩] tick targetDate now ∧
        aggregateSentimentScores
            [⟨tick, 10 * u, c, cr, s⟩, ⟨tick, u, c, cr, -s⟩] tick targetDate now < s) ∧
      (s < 0 →
        s < aggregateSentimentScores
            [⟨tick, 10 * u, c, cr, s⟩, ⟨tick, u, c, cr, -s⟩] tick targetDate now ∧
        aggregateSentimentScores
            [⟨tick, 10 * u, c, cr, s⟩, ⟨tick, u, c, cr, -s⟩] tick targetDate now <
          (s + -s) / 2)) := by
  intro tick targetDate cr now u c s hu hc hcn
  have hu' : (0 : ℚ) < (u : ℚ) := by exact_mod_cast hu
  have hc' : (0 : ℚ) ≤ (c : ℚ) := by exact_mod_cast hc
  have ht : (0 : ℚ) < 1 / (1 + (now - cr) / 86400) := by
    have h1 : (0 : ℚ) ≤ (now - cr) / 86400 := div_nonneg (by linarith) (by norm_num)
    have h2 : (0 : ℚ) < 1 + (now - cr) / 86400 := by linarith
    positivity
  have hwA : finalWeight now (⟨tick, 10 * u, c, cr, s⟩ : RPost) =
      (10 * (u : ℚ) + (c : ℚ) * 2) * (1 / (1 + (now - cr) / 86400)) := by
    show (((10 * u : ℤ) : ℚ) + (c : ℚ) * 2) * (1 / (1 + (now - cr) / 86400)) = _
    push_cast
    ring
  have hwB : finalWeight now (⟨tick, u, c, cr, -s⟩ : RPost) =
      ((u : ℚ) + (c : ℚ) * 2) * (1 / (1 + (now - cr) / 86400)) := rfl
  have hwApos : 0 < finalWeight now (⟨tick, 10 * u, c, cr, s⟩ : RPost) := by
    rw [hwA]; positivity
  have hwBpos : 0 < finalWeight now (⟨tick, u, c, cr, -s⟩ : RPost) := by
    rw [hwB]; positivity
  have hlt : finalWeight now (⟨tick, u, c, cr, -s⟩ : RPost) <
      finalWeight now (⟨tick, 10 * u, c, cr, s⟩ : RPost) := by
    rw [hwA, hwB]
    have h9 : (u : ℚ) + (c : ℚ) * 2 < 10 * (u : ℚ) + (c : ℚ) * 2 := by linarith
    exact mul_lt_mul_of_pos_right h9 ht
  have hagg := aggregate_pair (⟨tick, 10 * u, c, cr, s⟩ : RPost)
    (⟨tick, u, c, cr, -s⟩ : RPost) tick targetDate now rfl rfl (by positivity)
  rw [hagg]
  set wA := finalWeight now (⟨tick, 10 * u, c, cr, s⟩ : RPost) with hWA
  set wB := finalWeight now (⟨tick, u, c, cr, -s⟩ : RPost) with hWB
  have hm : (s + -s) / 2 = 0 := by ring
  rw [hm]
  show (0 < s → 0 < (s * wA + -s * wB) / (wA + wB) ∧ (s * wA + -s * wB) / (wA + wB) < s) ∧
       (s < 0 → s < (s * wA + -s * wB) / (wA + wB) ∧ (s * wA + -s * wB) / (wA + wB) < 0)
  have hD : 0 < wA + wB := by linarith
  constructor
  · intro hs0
    constructor
    · apply div_pos _ hD
      nlinarith
    · rw [div_lt_iff₀ hD]
      nlinarith
  · intro hs0
    constructor
    · rw [lt_div_iff₀ hD]
      nlinarith
    · apply div_neg_of_neg_of_pos _ hD
      nlinarith

/-- Witness for C8: ticker "EA", upvotes 10 vs 1, zero comments, equal age,
sentiments 1/2 and -1/2. -/
theorem aggregate_pulled_toward_engagement_witness :
    ((1 / 2 : ℚ) + -(1 / 2)) / 2 < aggregateSentimentScores
        [⟨"EA", 10 * 1, 0, 0, 1 / 2⟩, ⟨"EA", 1, 0, 0, -(1 / 2)⟩] "EA" 0 0 ∧
    aggregateSentimentScores
        [⟨"EA", 10 * 1, 0, 0, 1 / 2⟩, ⟨"EA", 1, 0, 0, -(1 / 2)⟩] "EA" 0 0 < 1 / 2 :=
  (aggregate_pulled_toward_engagement "EA" 0 0 0 1 0 (1 / 2)
    (by norm_num) (by norm_num) (by norm_num)).1 (by norm_num)

/-- Claim C4: (confirmed).  The ledger check `is_date_ticker_processed` returns
true iff a `completed` row for the (ticker, day) exists; when it is true,
`process_company` (for a company with keywords) returns `(0, 0)` immediately
without consulting the fetcher or touching the state; any ledger whose rows
are all non-`completed` (e.g. a stale `in_progress` row) yields false; and in
that case a re-run really reprocesses the pair, finishing with a `completed`
row. -/
theorem is_processed_iff_completed :
    (∀ (ledger : List LogEntry) (targetDate : ℤ) (ticker : String),
      isDateTickerProcessed ledger targetDate ticker = true ↔
        ∃ e ∈ ledger, e.ticker = ticker ∧ e.date = targetDate ∧ e.status = "completed") ∧
    (∀ (fetch : Fetcher) (company : CompanyKeywords) (targetDate : ℤ) (perDayCap : ℕ)
        (dryRun : Bool) (st : PState),
      company.keywords ≠ [] →
      isDateTickerProcessed st.ledger targetDate company.ticker = true →
      processCompany fetch company targetDate perDayCap dryRun st = ProcOutcome.ok 0 0 st) ∧
    (∀ (ledger : List LogEntry) (targetDate : ℤ) (ticker : String),
      (∀ e ∈ ledger, e.status ≠ "completed") →
      isDateTickerProcessed ledger targetDate ticker = false) ∧
    (∀ (company : CompanyKeywords) (targetDate : ℤ) (perDayCap : ℕ) (st : PState),
      company.keywords ≠ [] →
      isDateTickerProcessed st.ledger targetDate company.ticker = false →
      ∃ st', processCompany (fun _ _ => Except.ok []) company targetDate perDayCap false st =
          ProcOutcome.ok 0 0 st' ∧
        ∃ e ∈ st'.ledger, e.ticker = company.ticker ∧ e.date = targetDate ∧
          e.status = "completed" ∧ e.errorMessage = none) := by
  have hiff : ∀ (ledger : List LogEntry) (targetDate : ℤ) (ticker : String),
      isDateTickerProcessed ledger targetDate ticker = true ↔
        ∃ e ∈ ledger, e.ticker = ticker ∧ e.date = targetDate ∧ e.status = "completed" := by
    intro ledger targetDate ticker
    unfold isDateTickerProcessed
    rw [List.any_eq_true]
    simp only [decide_eq_true_eq]
  refine ⟨hiff, ?_, ?_, ?_⟩
  · intro fetch company targetDate perDayCap dryRun st hkw hproc
    obtain ⟨kw, rest, hrw⟩ := List.exists_cons_of_ne_nil hkw
    unfold processCompany
    rw [hrw]
    simp only [List.isEmpty_cons, Bool.false_eq_true, if_false, hproc, if_true]
  · intro ledger targetDate ticker hall
    unfold isDateTickerProcessed
    rw [List.any_eq_false]
    intro x hx
    simp only [decide_eq_true_eq]
    rintro ⟨-, -, h3⟩
    exact hall x hx h3
  · intro company targetDate perDayCap st hkw hproc
    obtain ⟨kw, rest, hrw⟩ := List.exists_cons_of_ne_nil hkw
    unfold processCompany
    rw [hrw]
    simp only [List.isEmpty_cons, Bool.false_eq_true, if_false, hproc, if_false]
    rw [← hrw, collectKeywordPosts_fetch_nil]
    refine ⟨_, rfl, ?_⟩
    simp only [completeProcessingLog]
    apply completeLedgerUpdate_exists_key
    exact startProcessingLog_exists_key st company.ticker targetDate

/-- Witness for C4: a ledger with one `completed` row answers true, a ledger
with only an `in_progress` row answers false, and a completed pair makes
`process_company` skip without touching anything. -/
theorem is_processed_iff_completed_witness :
    isDateTickerProcessed [⟨"EA", 0, "completed", none, 3, 2⟩] 0 "EA" = true ∧
    isDateTickerProcessed [⟨"EA", 0, "in_progress", none, 0, 0⟩] 0 "EA" = false ∧
    processCompany (fun _ _ => Except.error ()) ⟨"EA", "Electronic Arts", [⟨"ea", 1⟩]⟩ 0 200 false
        ⟨[⟨"EA", 0, "completed", none, 3, 2⟩], []⟩ =
      ProcOutcome.ok 0 0 ⟨[⟨"EA", 0, "completed", none, 3, 2⟩], []⟩ := by
  refine ⟨?_, ?_, ?_⟩
  · exact (is_processed_iff_completed.1 _ _ _).mpr
      ⟨⟨"EA", 0, "completed", none, 3, 2⟩, List.mem_singleton_self _, rfl, rfl, rfl⟩
  · exact is_processed_iff_completed.2.2.1 _ _ _ (by decide)
  · exact is_processed_iff_completed.2.1 _ _ _ _ _ _ (by decide) (by decide)

/-- Claim C5: counterexample.  The claim says a user cancellation leaves the
unit's ledger entry in a non-terminal state (not `completed`, `failed` or
`skipped`).  In the code the `except KeyboardInterrupt` handler sets
`status = 'failed'` and the `finally` block still runs
`complete_processing_log`: on this concrete interrupted run the entry is
finalized with the terminal status `failed`. -/
theorem cancellation_finalizes_failed_counterexample :
    processCompany (fun _ _ => Except.error ()) ⟨"EA", "Electronic Arts", [⟨"ea", 1⟩]⟩ 0 200 false
        ⟨[], []⟩ =
      ProcOutcome.interrupted
        ⟨[⟨"EA", 0, "failed", some "Processing interrupted by user", 0, 0⟩], []⟩ := by
  decide

/-- Claim C5: (corrected).  When a `KeyboardInterrupt` escapes the keyword loop:
the interrupt propagates (the outcome is `interrupted`, re-raised by the
handler), the unit's ledger entry is finalized as `failed` with message
"Processing interrupted by user" — not left non-terminal — and, because the
skip gate recognizes only `completed`, the unit remains eligible for retry on
the next run. -/
theorem cancellation_propagates_failed_retryable :
    ∀ (fetch : Fetcher) (company : CompanyKeywords) (targetDate : ℤ) (perDayCap : ℕ)
      (st : PState) (kw : KeywordInfo) (rest : List KeywordInfo),
      company.keywords = kw :: rest →
      fetch kw.keyword targetDate = Except.error () →
      isDateTickerProcessed st.ledger targetDate company.ticker = false →
      0 < perDayCap →
      ∃ st' : PState,
        processCompany fetch company targetDate perDayCap false st =
          ProcOutcome.interrupted st' ∧
        (∃ e ∈ st'.ledger, e.ticker = company.ticker ∧ e.date = targetDate ∧
          e.status = "failed" ∧ e.errorMessage = some "Processing interrupted by user") ∧
        isDateTickerProcessed st'.ledger targetDate company.ticker = false := by
  intro fetch company targetDate perDayCap st kw rest hrw hf hproc hcap
  unfold processCompany
  rw [hrw]
  simp only [List.isEmpty_cons, Bool.false_eq_true, if_false, hproc, if_false]
  rw [collectKeywordPosts]
  rw [if_neg (by simp only [List.length_nil]; omega), hf]
  refine ⟨_, rfl, ?_, ?_⟩
  · simp only [completeProcessingLog]
    apply completeLedgerUpdate_exists_key
    exact startProcessingLog_exists_key st company.ticker targetDate
  · simp only [completeProcessingLog]
    exact isProcessed_completeLedgerUpdate_ne _ _ _ _ _ _ _ (by decide)

/-- Witness for C5's corrected theorem: a concrete interrupted run. -/
theorem cancellation_propagates_failed_retryable_witness :
    ∃ st' : PState,
      processCompany (fun _ _ => Except.error ()) ⟨"EA", "Electronic Arts", [⟨"ea", 1⟩]⟩ 0 200
          false ⟨[], []⟩ =
        ProcOutcome.interrupted st' ∧
      (∃ e ∈ st'.ledger, e.ticker = "EA" ∧ e.date = 0 ∧
        e.status = "failed" ∧ e.errorMessage = some "Processing interrupted by user") ∧
      isDateTickerProcessed st'.ledger 0 "EA" = false :=
  cancellation_propagates_failed_retryable (fun _ _ => Except.error ())
    ⟨"EA", "Electronic Arts", [⟨"ea", 1⟩]⟩ 0 200 ⟨[], []⟩ ⟨"ea", 1⟩ [] rfl rfl (by decide)
    (by norm_num)

/-- Claim C9: counterexample.  The claim says a tracked ticker with no configured
keywords is neither aborted nor skipped and that retrieval is still attempted
with the raw ticker string.  In `process_company` a company with no keywords
is skipped outright: the run returns `(0, 0)` and logs the pair with status
`skipped` — even with a fetcher that would have returned a matching post. -/
theorem no_keywords_skips_counterexample :
    processCompany (fun _ _ => Except.ok [⟨"x", "great zzzz game", "", 50, 7, 2⟩])
        ⟨"ZZZZ", "Mystery Corp", []⟩ 0 200 false ⟨[], []⟩ =
      ProcOutcome.ok 0 0
        ⟨[⟨"ZZZZ", 0, "skipped", some "No keywords found for company", 0, 0⟩], []⟩ := by
  decide

/-- Claim C9: (corrected).  The fallback exists only in the signal-calculation
path: `_fetch_real_reddit_posts` uses `TICKER_GAME_MAPPING.get(ticker,
[ticker.lower()])`, so an unmapped ticker is searched with its lowercased
symbol as the sole keyword.  The database fetch pipeline instead skips a
company with no keyword rows: `process_company` never consults the fetcher
(the outcome is the same for any two fetchers) and finalizes the ledger entry
as `skipped`. -/
theorem keyword_fallback_or_skip :
    (∀ t : String, tickerGameMapping.find? (fun p => p.1 = t) = none →
      fetchRealKeywords t = [t.toLower]) ∧
    (∀ (fetch fetch' : Fetcher) (company : CompanyKeywords) (targetDate : ℤ)
        (perDayCap : ℕ) (st : PState),
      company.keywords = [] →
      processCompany fetch company targetDate perDayCap false st =
        processCompany fetch' company targetDate perDayCap false st) ∧
    (∀ (fetch : Fetcher) (company : CompanyKeywords) (targetDate : ℤ) (perDayCap : ℕ)
        (st : PState),
      company.keywords = [] →
      ∃ st', processCompany fetch company targetDate perDayCap false st =
          ProcOutcome.ok 0 0 st' ∧
        ∃ e ∈ st'.ledger, e.ticker = company.ticker ∧ e.date = targetDate ∧
          e.status = "skipped" ∧
          e.errorMessage = some "No keywords found for company") := by
  refine ⟨?_, ?_, ?_⟩
  · intro t h
    unfold fetchRealKeywords
    rw [h]
  · intro fetch fetch' company targetDate perDayCap st hkw
    unfold processCompany
    rw [hkw]
    rfl
  · intro fetch company targetDate perDayCap st hkw
    unfold processCompany
    rw [hkw]
    refine ⟨_, rfl, ?_⟩
    simp only [completeProcessingLog]
    apply completeLedgerUpdate_exists_key
    exact startProcessingLog_exists_key st company.ticker targetDate

/-- Witness for C9's corrected theorem: the unmapped ticker "ZZZZ" falls back
to its lowercased symbol in the signal path, and a keywordless company is
logged as `skipped` in the fetch pipeline. -/
theorem keyword_fallback_or_skip_witness :
    fetchRealKeywords "ZZZZ" = ["ZZZZ".toLower] ∧
    ∃ st', processCompany (fun _ _ => Except.error ()) ⟨"ZZZZ", "Mystery Corp", []⟩ 0 200
        false ⟨[], []⟩ = ProcOutcome.ok 0 0 st' ∧
      ∃ e ∈ st'.ledger, e.ticker = "ZZZZ" ∧ e.date = 0 ∧ e.status = "skipped" ∧
        e.errorMessage = some "No keywords found for company" :=
  ⟨keyword_fallback_or_skip.1 "ZZZZ" (by decide),
   keyword_fallback_or_skip.2.2 (fun _ _ => Except.error ())
     ⟨"ZZZZ", "Mystery Corp", []⟩ 0 200 ⟨[], []⟩ rfl⟩

/-- Claim C6: (confirmed).  `filter_and_rank_submissions` returns exactly
`min(per_day_cap, |matching candidates|)` posts; every returned post was
created on the target date and matches the keyword case-insensitively in
title-plus-body; the output is sorted by upvotes descending; every matching
candidate left out scores no higher than anything returned; and within each
upvote-count tie class the output is a prefix of the candidates in arrival
order (the stable-sort tie-break). -/
theorem filter_and_rank_selector_spec :
    ∀ (submissions : List Submission) (keyword : String) (targetDate : ℤ) (perDayCap : ℕ),
      (filterAndRankSubmissions submissions keyword targetDate perDayCap).length =
        min perDayCap (submissions.filter (fun s =>
          decide (tsDate s.createdUtc = targetDate) &&
            detectKeywordMatch (s.title ++ "\n" ++ s.selftext) keyword)).length ∧
      (∀ s ∈ filterAndRankSubmissions submissions keyword targetDate perDayCap,
        tsDate s.createdUtc = targetDate ∧
          detectKeywordMatch (s.title ++ "\n" ++ s.selftext) keyword = true) ∧
      (filterAndRankSubmissions submissions keyword targetDate perDayCap).Pairwise
        (fun a b => b.score ≤ a.score) ∧
      (∀ q ∈ submissions.filter (fun s => decide (tsDate s.createdUtc = targetDate) &&
            detectKeywordMatch (s.title ++ "\n" ++ s.selftext) keyword),
        q ∉ filterAndRankSubmissions submissions keyword targetDate perDayCap →
        ∀ s ∈ filterAndRankSubmissions submissions keyword targetDate perDayCap,
          q.score ≤ s.score) ∧
      (∀ k : ℤ, ∃ m, (filterAndRankSubmissions submissions keyword targetDate perDayCap).filter
            (fun s => decide (s.score = k)) =
          ((submissions.filter (fun s => decide (tsDate s.createdUtc = targetDate) &&
              detectKeywordMatch (s.title ++ "\n" ++ s.selftext) keyword)).filter
            (fun s => decide (s.score = k))).take m) := by
  intro submissions keyword targetDate perDayCap
  set matched := submissions.filter (fun s =>
    decide (tsDate s.createdUtc = targetDate) &&
      detectKeywordMatch (s.title ++ "\n" ++ s.selftext) keyword) with hmatched
  set L := matched.mergeSort byScoreDesc with hL
  have hout : filterAndRankSubmissions submissions keyword targetDate perDayCap =
      L.take perDayCap := rfl
  have hsorted : L.Pairwise (fun a b => byScoreDesc a b = true) :=
    List.sorted_mergeSort byScoreDesc_trans byScoreDesc_total matched
  have hsorted' : L.Pairwise (fun a b : Submission => b.score ≤ a.score) :=
    hsorted.imp (fun h => by simpa [byScoreDesc] using h)
  refine ⟨?_, ?_, ?_, ?_, ?_⟩
  · rw [hout, List.length_take, List.length_mergeSort]
  · intro s hs
    rw [hout] at hs
    have hsL : s ∈ L := List.mem_of_mem_take hs
    have hsm : s ∈ matched := List.mem_mergeSort.mp hsL
    rw [hmatched] at hsm
    have := (List.mem_filter.mp hsm).2
    simp only [Bool.and_eq_true, decide_eq_true_eq] at this
    exact this
  · rw [hout]
    exact hsorted'.sublist (List.take_sublist _ _)
  · intro q hq hqout s hs
    rw [hout] at hqout hs
    have hqL : q ∈ L := List.mem_mergeSort.mpr hq
    have hsplit : L.take perDayCap ++ L.drop perDayCap = L := List.take_append_drop _ _
    have hpw : (L.take perDayCap ++ L.drop perDayCap).Pairwise
        (fun a b : Submission => b.score ≤ a.score) := by
      rw [hsplit]; exact hsorted'
    have hcross := (List.pairwise_append.mp hpw).2.2
    have hqdrop : q ∈ L.drop perDayCap := by
      rcases (List.mem_append.mp (by rw [hsplit]; exact hqL)) with h | h
      · exact absurd h hqout
      · exact h
    exact hcross s hs q hqdrop
  · intro k
    refine ⟨(L.take perDayCap).filter (fun s => decide (s.score = k)) |>.length, ?_⟩
    rw [hout]
    have hfull : L.filter (fun s => decide (s.score = k)) =
        matched.filter (fun s => decide (s.score = k)) :=
      mergeSort_filter_score k matched
    have happ : (L.take perDayCap).filter (fun s => decide (s.score = k)) ++
        (L.drop perDayCap).filter (fun s => decide (s.score = k)) =
        matched.filter (fun s => decide (s.score = k)) := by
      rw [← List.filter_append, List.take_append_drop, hfull]
    rw [← happ, List.take_left]

/-- Witness for C6: three candidates (two matching, scores 9 and 5) with a
cap of 1 — the excluded matching candidate scores no higher than the winner. -/
theorem filter_and_rank_selector_spec_witness :
    (⟨"b", "ea other", "", 20, 5, 1⟩ : Submission).score ≤
      (⟨"a", "EA post", "", 10, 9, 0⟩ : Submission).score := by
  have hout : filterAndRankSubmissions
      [⟨"a", "EA post", "", 10, 9, 0⟩, ⟨"b", "ea other", "", 20, 5, 1⟩,
       ⟨"c", "other", "", 30, 100, 0⟩] "ea" 0 1 =
      [⟨"a", "EA post", "", 10, 9, 0⟩] := by
    show ((([⟨"a", "EA post", "", 10, 9, 0⟩, ⟨"b", "ea other", "", 20, 5, 1⟩,
       ⟨"c", "other", "", 30, 100, 0⟩] : List Submission).filter (fun s =>
        decide (tsDate s.createdUtc = 0) &&
          detectKeywordMatch (s.title ++ "\n" ++ s.selftext) "ea")).mergeSort
            byScoreDesc).take 1 = [⟨"a", "EA post", "", 10, 9, 0⟩]
    rw [show (([⟨"a", "EA post", "", 10, 9, 0⟩, ⟨"b", "ea other", "", 20, 5, 1⟩,
       ⟨"c", "other", "", 30, 100, 0⟩] : List Submission).filter (fun s =>
        decide (tsDate s.createdUtc = 0) &&
          detectKeywordMatch (s.title ++ "\n" ++ s.selftext) "ea")) =
      [⟨"a", "EA post", "", 10, 9, 0⟩, ⟨"b", "ea other", "", 20, 5, 1⟩] from by decide]
    rw [List.mergeSort_of_sorted (by decide)]
    rfl
  exact (filter_and_rank_selector_spec
      [⟨"a", "EA post", "", 10, 9, 0⟩, ⟨"b", "ea other", "", 20, 5, 1⟩,
       ⟨"c", "other", "", 30, 100, 0⟩] "ea" 0 1).2.2.2.1
    ⟨"b", "ea other", "", 20, 5, 1⟩ (by decide)
    (by rw [hout]; decide)
    ⟨"a", "EA post", "", 10, 9, 0⟩ (by rw [hout]; decide)

end SentimentReddit
